import Mathlib

/- Verification of the signal-to-trade pipeline and dashboard components of a
   tweet-driven crypto trading bot.  The dashboard components are embedded from
   the frontend TypeScript sources; the backend pipeline components, whose
   implementation sources are not part of the repository checkout (only design
   documents, configuration documentation and the frontend consume them), are
   modelled from the specification text. -/

namespace TradingBot

/-- JavaScript expression x || d evaluated on an optional number x: undefined
    and 0 are falsy, every other number is truthy and is returned unchanged. -/
def jsNumOr (x : Option ℚ) (d : ℚ) : ℚ :=
  match x with
  | none => d
  | some v => if v = 0 then d else v

/-- A position row as declared in frontend/types.d.ts (interface Position).
    Optional fields are Option; numbers are rationals. -/
structure Position where
  id : Option Nat
  symbol : String
  size : ℚ
  avg_entry : ℚ
  leverage : ℚ
  unrealized_pnl : Option ℚ
  updated_at : Option String

/-- PositionsOverview.tsx, lines 22-24:
    positions?.reduce((sum, pos) => sum + (pos.unrealized_pnl || 0), 0) || 0.
    The null/undefined position list is Option; the optional chaining result
    feeds the outer || 0. -/
def totalUnrealizedPnl (positions : Option (List Position)) : ℚ :=
  jsNumOr (positions.map (fun ps => ps.foldl (fun sum pos => sum + jsNumOr pos.unrealized_pnl 0) 0)) 0

/-- The two ways the TradeHistory P&L cell can render: the literal string N/A,
    or the Intl currency formatting of the amount (the external Intl formatter
    is abstracted by recording which amount is formatted). -/
inductive Rendered where
  | na : Rendered
  | currency : ℚ → Rendered
  deriving DecidableEq

/-- TradeHistory.tsx formatCurrency (lines 499-507):
    if (!amount) return 'N/A'; return Intl.NumberFormat(...).format(amount).
    For a number amount, !amount is true exactly when the amount is undefined
    or equal to 0. -/
def formatCurrency (amount : Option ℚ) : Rendered :=
  match amount with
  | none => Rendered.na
  | some a => if a = 0 then Rendered.na else Rendered.currency a

/-- Frontend trade status as declared in types.d.ts:
    status: 'OPEN' | 'CLOSED' | 'CANCELLED'. -/
inductive FTradeStatus where
  | OPEN : FTradeStatus
  | CLOSED : FTradeStatus
  | CANCELLED : FTradeStatus
  deriving DecidableEq

/-- Frontend trade side as declared in types.d.ts: side: 'LONG' | 'SHORT'. -/
inductive FSide where
  | LONG : FSide
  | SHORT : FSide
  deriving DecidableEq

/-- A trade row as declared in frontend/types.d.ts (interface Trade). -/
structure FTrade where
  id : Option Nat
  tweet_id : Nat
  symbol : String
  side : FSide
  leverage : ℚ
  quantity : ℚ
  entry_price : Option ℚ
  stop_loss : Option ℚ
  take_profit : Option ℚ
  status : FTradeStatus
  pnl : Option ℚ
  created_at : Option String
  closed_at : Option String

/-- The P&L table cell of TradeHistory.tsx (lines 628-633): it renders
    formatCurrency(trade.pnl). -/
def pnlCell (t : FTrade) : Rendered :=
  formatCurrency t.pnl

/-- Milliseconds per hour, the 24h-range step of PnLChart.tsx. -/
def msPerHour : Int := 3600000

/-- Milliseconds per day, the daily step of PnLChart.tsx. -/
def msPerDay : Int := 86400000

/-- Abstraction of JS Date.prototype.toDateString as a day-equivalence key on
    millisecond timestamps: two timestamps print the same date string exactly
    when they fall in the same (here UTC-aligned, uniform-length) day. -/
def dayKey (t : Int) : Int := Int.fdiv t msPerDay

/-- A trade as consumed by generatePnLData in PnLChart.tsx: only created_at and
    pnl are read.  created_at is the parse of the optional date string into a
    millisecond timestamp; none covers an absent as well as an unparseable
    string (an unparseable string yields NaN, which fails every range
    comparison just as an absent one fails the truthiness test). -/
structure PTrade where
  created_at : Option Int
  pnl : Option ℚ
  deriving DecidableEq

/-- A chart data point as declared in types.d.ts (interface PnLDataPoint); the
    two string fields are kept as the timestamp and its day key. -/
structure PnLDataPoint where
  timestamp : Int
  cumulative_pnl : ℚ
  daily_pnl : ℚ
  trade_count : Nat
  date : Int
  deriving DecidableEq

/-- PnLChart.tsx lines 38-45: the range string selects the number of days. -/
def rangeDays (range : String) : Int :=
  if range = "24h" then 1 else if range = "7d" then 7 else if range = "30d" then 30 else 90

/-- PnLChart.tsx lines 49-53: a trade passes the filter when its created_at is
    present and its timestamp lies in [startDate, now]. -/
def inRange (startT now : Int) (tr : PTrade) : Bool :=
  match tr.created_at with
  | none => false
  | some t => decide (startT ≤ t) && decide (t ≤ now)

/-- One insertion step of the stable ascending sort by created_at time used at
    PnLChart.tsx lines 56-60 (Array.prototype.sort with the getTime difference
    comparator; any stable sort computes the same list). -/
def sortInsert (tr : PTrade) : List PTrade → List PTrade
  | [] => [tr]
  | x :: xs =>
    if tr.created_at.getD 0 ≤ x.created_at.getD 0 then tr :: x :: xs
    else x :: sortInsert tr xs

/-- Stable insertion sort by created_at time (PnLChart.tsx lines 56-60). -/
def sortByTime : List PTrade → List PTrade
  | [] => []
  | x :: xs => sortInsert x (sortByTime xs)

/-- Result of the inner while loop of generatePnLData for one day: the daily
    P&L, the cumulative P&L, the trade count, and the trades not yet consumed
    (tradeIndex is modelled by returning the remaining suffix). -/
structure DayOut where
  daily : ℚ
  cum : ℚ
  cnt : Nat
  rest : List PTrade
  deriving DecidableEq

/-- PnLChart.tsx lines 74-88: consume the leading trades whose created_at is
    present and whose date string matches the current day; each consumed trade
    with truthy pnl adds its pnl to both dailyPnL and cumulativePnL and bumps
    tradeCount, a consumed trade with falsy pnl changes nothing. -/
def dayLoop (dk : Int) (daily cum : ℚ) (cnt : Nat) : List PTrade → DayOut
  | [] => ⟨daily, cum, cnt, []⟩
  | tr :: rest =>
    match tr.created_at with
    | none => ⟨daily, cum, cnt, tr :: rest⟩
    | some t =>
      if dayKey t = dk then
        match tr.pnl with
        | some p =>
          if p = 0 then dayLoop dk daily cum cnt rest
          else dayLoop dk (daily + p) (cum + p) (cnt + 1) rest
        | none => dayLoop dk daily cum cnt rest
      else ⟨daily, cum, cnt, tr :: rest⟩

/-- PnLChart.tsx lines 63-104: the outer while loop over tick dates from
    startDate to now, stepping one hour (24h range) or one day.  The fuel
    argument only bounds the recursion; generatePnLData supplies more fuel than
    the guard currentDate <= now ever allows iterations, so the guard, not the
    fuel, ends the loop. -/
def genLoop (step now : Int) : Nat → Int → List PTrade → ℚ → List PnLDataPoint
  | 0, _, _, _ => []
  | fuel + 1, cur, trs, cum =>
    if cur ≤ now then
      let o := dayLoop (dayKey cur) 0 cum 0 trs
      { timestamp := cur, cumulative_pnl := o.cum, daily_pnl := o.daily,
        trade_count := o.cnt, date := dayKey cur } ::
        genLoop step now fuel (cur + step) o.rest o.cum
    else []

/-- PnLChart.tsx lines 33-107, generatePnLData: filter the trades to the time
    range, sort them by creation time, then walk the tick dates accumulating
    daily and cumulative P&L.  now stands for new Date().getTime(). -/
def generatePnLData (trades : List PTrade) (range : String) (now : Int) : List PnLDataPoint :=
  let days := rangeDays range
  let startT := now - days * msPerDay
  let step := if range = "24h" then msPerHour else msPerDay
  let sorted := sortByTime (trades.filter (inRange startT now))
  genLoop step now (days.toNat * 24 + 2) startT sorted 0

/-- Modelled from the spec: section 4.3 clamp(0, 1, x) used by the Signal
    Scorer; the backend scorer implementation is not in the checkout. -/
def clamp (lo hi x : ℚ) : ℚ := max lo (min hi x)

/-- Modelled from the spec: section 4.1 Signal Scorer,
    signal_score = round(100 * clamp(0, 1, wk*k + ws*(s+1)/2)); the backend
    scorer implementation is not in the checkout. -/
def signalScore (wk ws k s : ℚ) : ℤ :=
  round (100 * clamp 0 1 (wk * k + ws * ((s + 1) / 2)))

/-- Modelled from the spec: default keyword weight 0.5 (section 4.1). -/
def defaultKeywordWeight : ℚ := 1 / 2

/-- Modelled from the spec: default sentiment weight 0.5 (section 4.1). -/
def defaultSentimentWeight : ℚ := 1 / 2

/-- Trade direction (long/short) of the data model. -/
inductive Direction where
  | long : Direction
  | short : Direction
  deriving DecidableEq

/-- Modelled from the spec: the risk parameters consumed by the Position Sizer
    (section 4.3), with the documented defaults 0.01 / 0.02 / 0.04 in
    backend/CONFIG.md. -/
structure RiskParams where
  position_size_percent : ℚ
  stop_loss_percent : ℚ
  take_profit_percent : ℚ
  deriving DecidableEq

/-- Result record of the Position Sizer. -/
structure SizeResult where
  quantity : ℚ
  stop_loss : ℚ
  take_profit : ℚ
  deriving DecidableEq

/-- Failure of the Position Sizer. -/
inductive SizeError where
  | InsufficientBalance : SizeError
  deriving DecidableEq

/-- Round x down to a whole number of increments (the instrument's minimum
    quantity increment, injected as a parameter). -/
def roundDownTo (inc x : ℚ) : ℚ := inc * (⌊x / inc⌋ : ℤ)

/-- Modelled from the spec: stop_loss is price * (1 - stop_loss_percent) for a
    long and price * (1 + stop_loss_percent) for a short (section 4.3). -/
def stopLossFor (dir : Direction) (price slp : ℚ) : ℚ :=
  match dir with
  | Direction.long => price * (1 - slp)
  | Direction.short => price * (1 + slp)

/-- Modelled from the spec: take_profit is price * (1 + take_profit_percent)
    for a long and price * (1 - take_profit_percent) for a short
    (section 4.3). -/
def takeProfitFor (dir : Direction) (price tpp : ℚ) : ℚ :=
  match dir with
  | Direction.long => price * (1 + tpp)
  | Direction.short => price * (1 - tpp)

/-- Modelled from the spec: section 4.3 Position Sizer.  The backend sizer
    implementation is not in the checkout.  quantity =
    (balance * position_size_percent) / price rounded down to the minimum
    quantity increment; fails with InsufficientBalance exactly when the rounded
    quantity is zero or below the exchange minimum order size. -/
def size (dir : Direction) (balance price : ℚ) (rp : RiskParams)
    (qtyIncrement minOrderSize : ℚ) : Except SizeError SizeResult :=
  let q := roundDownTo qtyIncrement (balance * rp.position_size_percent / price)
  if q = 0 ∨ q < minOrderSize then Except.error SizeError.InsufficientBalance
  else Except.ok ⟨q, stopLossFor dir price rp.stop_loss_percent,
                  takeProfitFor dir price rp.take_profit_percent⟩

/-- Modelled from the spec: the Risk Gate configuration (sections 4.2 and 3,
    backend/CONFIG.md); day_start_balance is the account balance at the start
    of the trading day. -/
structure GateConfig where
  signal_threshold : ℤ
  max_open_positions : Nat
  max_daily_drawdown : ℚ
  day_start_balance : ℚ
  deriving DecidableEq

/-- Modelled from the spec: Risk State (section 3) - daily realized P&L
    accumulator, open-position count, manual-override flag, halted flag. -/
structure RiskState where
  daily_realized_pnl : ℚ
  open_position_count : Nat
  manual_override : Bool
  halted : Bool
  deriving DecidableEq

/-- Modelled from the spec: a Ledger refresh of the Risk State (section 4.2).
    The gate reads the day's realized P&L and open-position count from the
    Ledger; the Active -> Halted transition fires when the refreshed daily
    realized P&L is at most -max_daily_drawdown * day-start balance, and an
    already halted state stays halted. -/
def refresh (cfg : GateConfig) (st : RiskState) (pnl : ℚ) (openCount : Nat) : RiskState :=
  { daily_realized_pnl := pnl
    open_position_count := openCount
    manual_override := st.manual_override
    halted := st.halted || decide (pnl ≤ -cfg.max_daily_drawdown * cfg.day_start_balance) }

/-- A sequence of Ledger refreshes applied in order (each update is the day's
    realized P&L and open-position count read from the Ledger). -/
def applyUpdates (cfg : GateConfig) (st : RiskState) : List (ℚ × Nat) → RiskState
  | [] => st
  | u :: us => applyUpdates cfg (refresh cfg st u.1 u.2) us

/-- Modelled from the spec: the day-boundary reset (section 3), the only
    operation that clears the halted flag. -/
def dayReset (st : RiskState) : RiskState :=
  { daily_realized_pnl := 0
    open_position_count := st.open_position_count
    manual_override := st.manual_override
    halted := false }

/-- Modelled from the spec: the rejection reasons of the admission contract
    (section 4.2). -/
inductive RejectReason where
  | AlreadyProcessed : RejectReason
  | BelowThreshold : RejectReason
  | DrawdownHalted : RejectReason
  | TooManyOpenPositions : RejectReason
  | ManualApprovalRequired : RejectReason
  deriving DecidableEq

/-- Modelled from the spec: admission(signal) -> Decision (section 4.2). -/
inductive Decision where
  | Approve : Decision
  | Reject : RejectReason → Decision
  deriving DecidableEq

/-- An admission request: the signal score, the processed flag of the
    underlying content item, and whether a valid out-of-band approval token
    accompanies the re-submission (section 4.2, check 5). -/
structure AdmissionRequest where
  score : ℤ
  processed : Bool
  approvalToken : Bool
  deriving DecidableEq

/-- Modelled from the spec: the admission contract of section 4.2, checks
    evaluated in the fixed order 1 AlreadyProcessed, 2 BelowThreshold,
    3 DrawdownHalted, 4 TooManyOpenPositions, 5 ManualApprovalRequired (a valid
    token bypasses only check 5), otherwise Approve.  The backend gate
    implementation is not in the checkout. -/
def admission (cfg : GateConfig) (st : RiskState) (req : AdmissionRequest) : Decision :=
  if req.processed then Decision.Reject RejectReason.AlreadyProcessed
  else if req.score < cfg.signal_threshold then Decision.Reject RejectReason.BelowThreshold
  else if st.halted then Decision.Reject RejectReason.DrawdownHalted
  else if cfg.max_open_positions ≤ st.open_position_count then
    Decision.Reject RejectReason.TooManyOpenPositions
  else if st.manual_override && !req.approvalToken then
    Decision.Reject RejectReason.ManualApprovalRequired
  else Decision.Approve

/-- Modelled from the spec: the five Trade statuses of the data model
    (section 3). -/
inductive TradeStatus where
  | Pending : TradeStatus
  | Open : TradeStatus
  | Closed : TradeStatus
  | Cancelled : TradeStatus
  | Failed : TradeStatus
  deriving DecidableEq

/-- Modelled from the spec: a Trade record owned by the Ledger (section 3). -/
structure TradeRecord where
  signal_id : Nat
  symbol : String
  direction : Direction
  leverage : ℚ
  quantity : ℚ
  entry_price : Option ℚ
  stop_loss : ℚ
  take_profit : ℚ
  status : TradeStatus
  realized_pnl : Option ℚ
  deriving DecidableEq

/-- Modelled from the spec: the Position/Trade Ledger's trade store
    (section 4.5), its records in creation order. -/
structure Ledger where
  trades : List TradeRecord
  deriving DecidableEq

/-- Number of Trade records in the Ledger carrying the given signal id. -/
def countFor (led : Ledger) (sigId : Nat) : Nat :=
  (led.trades.filter (fun t => t.signal_id == sigId)).length

/-- A fresh Pending trade record keyed by the signal id (section 4.4 step 1). -/
def mkPending (sigId : Nat) (sym : String) (dir : Direction) (lev : ℚ)
    (sz : SizeResult) : TradeRecord :=
  ⟨sigId, sym, dir, lev, sz.quantity, none, sz.stop_loss, sz.take_profit,
    TradeStatus.Pending, none⟩

/-- Modelled from the spec: step 1 of execute (section 4.4) - create a Pending
    Trade keyed by the signal id; a second call with the same signal id returns
    the existing Trade instead of creating a duplicate.  The backend
    coordinator implementation is not in the checkout. -/
def execute (led : Ledger) (sigId : Nat) (sym : String) (dir : Direction)
    (lev : ℚ) (sz : SizeResult) : TradeRecord × Ledger :=
  match led.trades.find? (fun t => t.signal_id == sigId) with
  | some t => (t, led)
  | none =>
    let t := mkPending sigId sym dir lev sz
    (t, ⟨led.trades ++ [t]⟩)

/-- n further calls of execute with the same signal id, keeping the Ledger. -/
def executeN (sigId : Nat) (sym : String) (dir : Direction) (lev : ℚ)
    (sz : SizeResult) : Nat → Ledger → Ledger
  | 0, led => led
  | n + 1, led => executeN sigId sym dir lev sz n (execute led sigId sym dir lev sz).2

/-- Modelled from the spec: an admission evaluated against the Ledger - a
    Reject outcome is a first-class Decision and performs no Ledger write
    (sections 4.2 and 7); only Approve proceeds to execute. -/
def admissionAndRecord (cfg : GateConfig) (st : RiskState) (req : AdmissionRequest)
    (led : Ledger) (sigId : Nat) (sym : String) (dir : Direction) (lev : ℚ)
    (sz : SizeResult) : Decision × Ledger :=
  match admission cfg st req with
  | Decision.Approve => (Decision.Approve, (execute led sigId sym dir lev sz).2)
  | Decision.Reject r => (Decision.Reject r, led)

/-- Modelled from the spec: the allowed Trade status transitions,
    Pending -> Open | Failed on acknowledgment/rejection and
    Open -> Closed | Cancelled on closing (sections 4.4 and 5(c)); Closed,
    Cancelled and Failed are terminal, every other write is a StaleTransition
    rejected by the compare-and-set. -/
def allowedNext (a b : TradeStatus) : Bool :=
  match a, b with
  | TradeStatus.Pending, TradeStatus.Open => true
  | TradeStatus.Pending, TradeStatus.Failed => true
  | TradeStatus.Open, TradeStatus.Closed => true
  | TradeStatus.Open, TradeStatus.Cancelled => true
  | _, _ => false

/-- Reachability along allowed status transitions. -/
def StatusReachable : TradeStatus → TradeStatus → Prop :=
  Relation.ReflTransGen (fun a b => allowedNext a b = true)

/-- The frontend status literals map into the data model's status set. -/
def ftsToCore : FTradeStatus → TradeStatus
  | FTradeStatus.OPEN => TradeStatus.Open
  | FTradeStatus.CLOSED => TradeStatus.Closed
  | FTradeStatus.CANCELLED => TradeStatus.Cancelled

lemma jsNumOr_zero (x : Option ℚ) : jsNumOr x 0 = x.getD 0 := by
  cases x with
  | none => rfl
  | some v =>
    simp only [jsNumOr, Option.getD_some]
    split
    · next h => exact h.symm
    · rfl

lemma jsNumOr_some (v : ℚ) : jsNumOr (some v) 0 = v := by
  rw [jsNumOr_zero]
  rfl

lemma foldl_pnl (ps : List Position) (a : ℚ) :
    ps.foldl (fun sum pos => sum + jsNumOr pos.unrealized_pnl 0) a
      = a + (ps.map (fun p => p.unrealized_pnl.getD 0)).sum := by
  induction ps generalizing a with
  | nil => simp
  | cons p ps ih =>
    rw [List.foldl_cons, ih]
    simp only [List.map_cons, List.sum_cons, jsNumOr_zero]
    ring

/-- C8: the total unrealized P&L shown by PositionsOverview equals the sum of
    unrealized_pnl over all fetched positions, a position with a missing
    unrealized_pnl contributing 0, and the total is exactly 0 when the
    position list is null or empty. -/
theorem positions_total_unrealized_pnl (ps : List Position) :
    totalUnrealizedPnl (some ps) = (ps.map (fun p => p.unrealized_pnl.getD 0)).sum
    ∧ totalUnrealizedPnl none = 0
    ∧ totalUnrealizedPnl (some []) = 0 := by
  refine ⟨?_, rfl, rfl⟩
  have h : totalUnrealizedPnl (some ps)
      = jsNumOr (some (ps.foldl (fun sum pos => sum + jsNumOr pos.unrealized_pnl 0) 0)) 0 := rfl
  rw [h, jsNumOr_some, foldl_pnl, zero_add]

/-- C10: TradeHistory's formatCurrency renders an undefined amount and the
    amount 0 as the string N/A, never as a formatted currency value, so a
    trade whose realized P&L is exactly zero shows N/A in the P&L column;
    every other amount is formatted as currency. -/
theorem formatCurrency_zero_is_na :
    formatCurrency none = Rendered.na
    ∧ (∀ a : ℚ, a = 0 → formatCurrency (some a) = Rendered.na)
    ∧ (∀ t : FTrade, t.pnl = some 0 → pnlCell t = Rendered.na)
    ∧ (∀ a : ℚ, a ≠ 0 → formatCurrency (some a) = Rendered.currency a) := by
  refine ⟨rfl, ?_, ?_, ?_⟩
  · intro a ha
    simp [formatCurrency, ha]
  · intro t ht
    simp [pnlCell, ht, formatCurrency]
  · intro a ha
    simp [formatCurrency, ha]

theorem formatCurrency_zero_is_na_witness :
    pnlCell ⟨none, 1, "BTCUSDT", FSide.LONG, 1, 1, none, none, none,
      FTradeStatus.CLOSED, some 0, none, none⟩ = Rendered.na :=
  formatCurrency_zero_is_na.2.2.1
    ⟨none, 1, "BTCUSDT", FSide.LONG, 1, 1, none, none, none,
      FTradeStatus.CLOSED, some 0, none, none⟩ rfl

lemma dayLoop_cum (trs : List PTrade) (dk : Int) (d c : ℚ) (n : Nat) :
    (dayLoop dk d c n trs).cum = c - d + (dayLoop dk d c n trs).daily := by
  induction trs generalizing d c n with
  | nil =>
    simp only [dayLoop]
    ring
  | cons tr rest ih =>
    cases htr : tr.created_at with
    | none =>
      simp only [dayLoop, htr]
      ring
    | some t =>
      by_cases hdk : dayKey t = dk
      · cases hp : tr.pnl with
        | none =>
          simp only [dayLoop, htr, hdk, if_pos, hp]
          exact ih d c n
        | some p =>
          by_cases hz : p = 0
          · simp only [dayLoop, htr, hdk, if_pos, hp, hz, if_true]
            exact ih d c n
          · simp only [dayLoop, htr, hdk, if_pos, hp, hz, if_false]
            rw [ih (d + p) (c + p) (n + 1)]
            ring
      · simp only [dayLoop, htr, hdk, if_neg, if_false]
        ring

lemma genLoop_cumulative (fuel : Nat) (step now : Int) :
    ∀ (cur : Int) (trs : List PTrade) (cum : ℚ) (i : Nat),
      i < (genLoop step now fuel cur trs cum).length →
      ((genLoop step now fuel cur trs cum).getD i ⟨0, 0, 0, 0, 0⟩).cumulative_pnl
        = cum + (((genLoop step now fuel cur trs cum).take (i + 1)).map
            PnLDataPoint.daily_pnl).sum := by
  induction fuel with
  | zero =>
    intro cur trs cum i hi
    simp [genLoop] at hi
  | succ fuel ih =>
    intro cur trs cum i hi
    by_cases hc : cur ≤ now
    · simp only [genLoop, if_pos hc] at hi ⊢
      cases i with
      | zero =>
        simp only [List.getD_cons_zero, List.take_succ_cons, List.take_zero,
          List.map_cons, List.map_nil, List.sum_cons, List.sum_nil, add_zero]
        have h := dayLoop_cum trs (dayKey cur) 0 cum 0
        rw [h]
        ring
      | succ i =>
        simp only [List.getD_cons_succ, List.take_succ_cons, List.map_cons,
          List.sum_cons]
        simp only [List.length_cons, Nat.succ_lt_succ_iff] at hi
        rw [ih (cur + step) (dayLoop (dayKey cur) 0 cum 0 trs).rest
          (dayLoop (dayKey cur) 0 cum 0 trs).cum i hi]
        have h := dayLoop_cum trs (dayKey cur) 0 cum 0
        rw [h]
        ring
    · simp [genLoop, if_neg hc] at hi

/-- C9: in the output of generatePnLData, every point's cumulative_pnl is the
    prefix sum of the daily_pnl values up to and including that point; a trade
    with a missing created_at is dropped by the range filter and leaves the
    output unchanged, and a consumed trade with falsy pnl (absent or zero)
    changes neither the daily nor the cumulative accumulator. -/
theorem pnl_chart_prefix_sum (trades : List PTrade) (range : String) (now : Int) :
    (∀ i : Nat, i < (generatePnLData trades range now).length →
      ((generatePnLData trades range now).getD i ⟨0, 0, 0, 0, 0⟩).cumulative_pnl
        = (((generatePnLData trades range now).take (i + 1)).map
            PnLDataPoint.daily_pnl).sum)
    ∧ (∀ (l1 l2 : List PTrade) (tr : PTrade), tr.created_at = none →
        generatePnLData (l1 ++ tr :: l2) range now
          = generatePnLData (l1 ++ l2) range now)
    ∧ (∀ (dk : Int) (daily cum : ℚ) (cnt : Nat) (tr : PTrade)
        (rest : List PTrade) (t : Int), tr.created_at = some t → dayKey t = dk →
        tr.pnl = none ∨ tr.pnl = some 0 →
        dayLoop dk daily cum cnt (tr :: rest) = dayLoop dk daily cum cnt rest) := by
  refine ⟨?_, ?_, ?_⟩
  · intro i hi
    have h := genLoop_cumulative ((rangeDays range).toNat * 24 + 2)
      (if range = "24h" then msPerHour else msPerDay) now
      (now - rangeDays range * msPerDay)
      (sortByTime (trades.filter (inRange (now - rangeDays range * msPerDay) now))) 0 i
    simp only [generatePnLData] at hi ⊢
    rw [h hi, zero_add]
  · intro l1 l2 tr htr
    have hfil : ∀ s : Int, inRange s now tr = false := by
      intro s
      simp [inRange, htr]
    simp only [generatePnLData, List.filter_append, List.filter_cons, hfil,
      Bool.false_eq_true, if_false]
  · intro dk daily cum cnt tr rest t htr hdk hp
    rcases hp with h | h
    · simp only [dayLoop, htr, hdk, if_pos, h]
    · simp only [dayLoop, htr, hdk, if_pos, h, if_true]

theorem pnl_chart_prefix_sum_witness :
    ((generatePnLData [] "7d" 0).getD 0 ⟨0, 0, 0, 0, 0⟩).cumulative_pnl
      = (((generatePnLData [] "7d" 0).take 1).map PnLDataPoint.daily_pnl).sum
    ∧ generatePnLData [⟨none, some 5⟩] "7d" 0 = generatePnLData [] "7d" 0
    ∧ dayLoop 0 0 0 0 [⟨some 0, some 0⟩] = dayLoop 0 0 0 0 [] :=
  ⟨(pnl_chart_prefix_sum [] "7d" 0).1 0 (by decide),
   (pnl_chart_prefix_sum [] "7d" 0).2.1 [] [] ⟨none, some 5⟩ rfl,
   (pnl_chart_prefix_sum [] "7d" 0).2.2 0 0 0 0 ⟨some 0, some 0⟩ [] 0 rfl (by decide)
     (Or.inr rfl)⟩

lemma clamp01_nonneg (x : ℚ) : 0 ≤ clamp 0 1 x := le_max_left 0 _

lemma clamp01_le_one (x : ℚ) : clamp 0 1 x ≤ 1 :=
  max_le (by norm_num) (min_le_left 1 x)

/-- C3: the Signal Scorer computes
    round(100 * clamp(0, 1, wk*k + ws*(s+1)/2)) for weights summing to 1
    (the defaults 0.5/0.5 do), it is deterministic (identical inputs give
    identical output), and the resulting score is an integer in [0, 100]. -/
theorem signal_scorer_formula (wk ws k s : ℚ) (_hw : wk + ws = 1)
    (_hs1 : -1 ≤ s) (_hs2 : s ≤ 1) (_hk1 : 0 ≤ k) (_hk2 : k ≤ 1) :
    signalScore wk ws k s = round (100 * clamp 0 1 (wk * k + ws * ((s + 1) / 2)))
    ∧ (∀ k' s' : ℚ, k' = k → s' = s → signalScore wk ws k' s' = signalScore wk ws k s)
    ∧ defaultKeywordWeight + defaultSentimentWeight = 1
    ∧ 0 ≤ signalScore wk ws k s ∧ signalScore wk ws k s ≤ 100 := by
  refine ⟨rfl, ?_, by norm_num [defaultKeywordWeight, defaultSentimentWeight], ?_, ?_⟩
  · intro k' s' hk hs
    rw [hk, hs]
  · rw [signalScore, round_eq]
    refine Int.le_floor.mpr ?_
    have h := clamp01_nonneg (wk * k + ws * ((s + 1) / 2))
    push_cast
    linarith
  · rw [signalScore, round_eq]
    have h2 : (⌊100 * clamp 0 1 (wk * k + ws * ((s + 1) / 2)) + 1 / 2⌋ : ℤ) < 101 := by
      refine Int.floor_lt.mpr ?_
      have h := clamp01_le_one (wk * k + ws * ((s + 1) / 2))
      push_cast
      linarith
    omega

theorem signal_scorer_formula_witness :
    0 ≤ signalScore (1 / 2) (1 / 2) 1 0 ∧ signalScore (1 / 2) (1 / 2) 1 0 ≤ 100 := by
  have h := signal_scorer_formula (1 / 2) (1 / 2) 1 0 (by norm_num) (by norm_num)
    (by norm_num) (by norm_num) (by norm_num)
  exact ⟨h.2.2.2.1, h.2.2.2.2⟩

/-- C5: the Position Sizer computes quantity as
    (balance * position_size_percent) / price rounded down to the minimum
    quantity increment, the protective levels as price * (1 -+ percent) with
    sign chosen by direction, and fails with InsufficientBalance exactly when
    the rounded quantity is zero or below the exchange minimum order size. -/
theorem position_sizer_contract (dir : Direction) (balance price : ℚ)
    (rp : RiskParams) (inc minQ : ℚ) :
    (size dir balance price rp inc minQ = Except.error SizeError.InsufficientBalance
      ↔ roundDownTo inc (balance * rp.position_size_percent / price) = 0
        ∨ roundDownTo inc (balance * rp.position_size_percent / price) < minQ)
    ∧ (¬(roundDownTo inc (balance * rp.position_size_percent / price) = 0
        ∨ roundDownTo inc (balance * rp.position_size_percent / price) < minQ) →
      size dir balance price rp inc minQ
        = Except.ok ⟨roundDownTo inc (balance * rp.position_size_percent / price),
            stopLossFor dir price rp.stop_loss_percent,
            takeProfitFor dir price rp.take_profit_percent⟩) := by
  constructor
  · constructor
    · intro h
      by_contra hq
      simp only [size, if_neg hq] at h
      exact Except.noConfusion h
    · intro hq
      simp only [size, if_pos hq]
  · intro hq
    simp only [size, if_neg hq]

theorem position_sizer_contract_witness :
    size Direction.long 10000 50000 ⟨1 / 100, 2 / 100, 4 / 100⟩
        (1 / 1000000) (1 / 1000000)
      = Except.ok ⟨roundDownTo (1 / 1000000) (10000 * (1 / 100) / 50000),
          stopLossFor Direction.long 50000 (2 / 100),
          takeProfitFor Direction.long 50000 (4 / 100)⟩ := by
  refine (position_sizer_contract Direction.long 10000 50000
    ⟨1 / 100, 2 / 100, 4 / 100⟩ (1 / 1000000) (1 / 1000000)).2 ?_
  have hq : roundDownTo (1 / 1000000) (10000 * (1 / 100) / 50000) = 1 / 500 := by
    norm_num [roundDownTo]
  rw [hq]
  norm_num

/-- C4 counterexample: with the documented default position_size_percent of
    0.01, size(balance 10000, price 50000, stop 0.02, take 0.04) on a long
    yields quantity 1/500 = 0.002, not the 0.2 the claim states; the claimed
    result record is not returned. -/
theorem position_sizer_roundtrip_counterexample :
    size Direction.long 10000 50000 ⟨1 / 100, 2 / 100, 4 / 100⟩
        (1 / 1000000) (1 / 1000000)
      = Except.ok ⟨1 / 500, 49000, 52000⟩
    ∧ ((1 : ℚ) / 500 = 2 / 10 → False)
    ∧ (size Direction.long 10000 50000 ⟨1 / 100, 2 / 100, 4 / 100⟩
        (1 / 1000000) (1 / 1000000) = Except.ok ⟨2 / 10, 49000, 52000⟩ → False) := by
  have hq : roundDownTo (1 / 1000000) (10000 * (1 / 100) / 50000) = 1 / 500 := by
    norm_num [roundDownTo]
  have hok : size Direction.long 10000 50000 ⟨1 / 100, 2 / 100, 4 / 100⟩
      (1 / 1000000) (1 / 1000000) = Except.ok ⟨1 / 500, 49000, 52000⟩ := by
    have h : ¬(roundDownTo (1 / 1000000) (10000 * (1 / 100) / 50000) = 0
        ∨ roundDownTo (1 / 1000000) (10000 * (1 / 100) / 50000) < 1 / 1000000) := by
      rw [hq]
      norm_num
    simp only [size, if_neg h, hq]
    norm_num [stopLossFor, takeProfitFor]
  refine ⟨hok, by norm_num, ?_⟩
  intro h
  rw [hok] at h
  have : (1 : ℚ) / 500 = 2 / 10 := by
    have h2 := h
    simp only [Except.ok.injEq, SizeResult.mk.injEq] at h2
    exact h2.1
  norm_num at this

/-- C4 (amended): with the documented default position_size_percent 0.01 and a
    0.000001 quantity increment, size(balance 10000, price 50000, stop 0.02,
    take 0.04) on a long yields quantity 0.002, stop_loss 49000 and
    take_profit 52000. -/
theorem position_sizer_roundtrip :
    size Direction.long 10000 50000 ⟨1 / 100, 2 / 100, 4 / 100⟩
        (1 / 1000000) (1 / 1000000)
      = Except.ok ⟨1 / 500, 49000, 52000⟩ := by
  have hq : roundDownTo (1 / 1000000) (10000 * (1 / 100) / 50000) = 1 / 500 := by
    norm_num [roundDownTo]
  have h : ¬(roundDownTo (1 / 1000000) (10000 * (1 / 100) / 50000) = 0
      ∨ roundDownTo (1 / 1000000) (10000 * (1 / 100) / 50000) < 1 / 1000000) := by
    rw [hq]
    norm_num
  simp only [size, if_neg h, hq]
  norm_num [stopLossFor, takeProfitFor]

lemma applyUpdates_halted (cfg : GateConfig) (us : List (ℚ × Nat)) :
    ∀ st : RiskState, st.halted = true → (applyUpdates cfg st us).halted = true := by
  induction us with
  | nil =>
    intro st h
    exact h
  | cons u us ih =>
    intro st h
    simp only [applyUpdates]
    exact ih _ (by simp [refresh, h])

/-- C1 (amended): a Ledger refresh that reports daily realized P&L at or below
    -max_daily_drawdown times the day-start balance sets the halted flag; once
    the halted flag is set, no further sequence of P&L updates clears it (even
    profitable ones), only the day-boundary reset does; and while halted,
    every admission request whose content item is unprocessed and whose score
    meets the signal threshold is rejected with DrawdownHalted. -/
theorem risk_gate_halts (cfg : GateConfig) (st : RiskState) (pnl : ℚ)
    (openCount : Nat) (updates : List (ℚ × Nat)) (req : AdmissionRequest) :
    (pnl ≤ -cfg.max_daily_drawdown * cfg.day_start_balance →
      (refresh cfg st pnl openCount).halted = true)
    ∧ (st.halted = true → (applyUpdates cfg st updates).halted = true)
    ∧ (st.halted = true → req.processed = false → cfg.signal_threshold ≤ req.score →
      admission cfg st req = Decision.Reject RejectReason.DrawdownHalted)
    ∧ (dayReset st).halted = false := by
  refine ⟨?_, applyUpdates_halted cfg updates st, ?_, rfl⟩
  · intro h
    simp only [refresh, Bool.or_eq_true, decide_eq_true_eq]
    right
    linarith [h]
  · intro hh hp hscore
    simp [admission, hp, hh, Int.not_lt.mpr hscore]

theorem risk_gate_halts_witness :
    (applyUpdates ⟨70, 5, 5 / 100, 10000⟩ ⟨-600, 0, false, true⟩ [(5, 0)]).halted = true
    ∧ admission ⟨70, 5, 5 / 100, 10000⟩ ⟨-600, 0, false, true⟩ ⟨99, false, false⟩
        = Decision.Reject RejectReason.DrawdownHalted :=
  ⟨(risk_gate_halts ⟨70, 5, 5 / 100, 10000⟩ ⟨-600, 0, false, true⟩ (-600) 0 [(5, 0)]
      ⟨99, false, false⟩).2.1 rfl,
   (risk_gate_halts ⟨70, 5, 5 / 100, 10000⟩ ⟨-600, 0, false, true⟩ (-600) 0 [(5, 0)]
      ⟨99, false, false⟩).2.2.1 rfl rfl (by decide)⟩

/-- C1 counterexample: driving the daily realized P&L to -600 on a 10000
    day-start balance with max_daily_drawdown 0.05 halts the gate, yet a
    subsequent admission request whose score 0 is below the threshold 70 is
    rejected with BelowThreshold, not DrawdownHalted: check 2 of the admission
    contract fires before the halted check, so the rejection reason is not
    DrawdownHalted regardless of signal score. -/
theorem risk_gate_halts_counterexample :
    (refresh ⟨70, 5, 5 / 100, 10000⟩ ⟨0, 0, false, false⟩ (-600) 0).halted = true
    ∧ admission ⟨70, 5, 5 / 100, 10000⟩ (refresh ⟨70, 5, 5 / 100, 10000⟩
        ⟨0, 0, false, false⟩ (-600) 0) ⟨0, false, false⟩
      = Decision.Reject RejectReason.BelowThreshold
    ∧ Decision.Reject RejectReason.BelowThreshold
        ≠ Decision.Reject RejectReason.DrawdownHalted := by
  have hh : (refresh ⟨70, 5, 5 / 100, 10000⟩ ⟨0, 0, false, false⟩ (-600) 0).halted = true := by
    simp only [refresh, Bool.false_or]
    rw [decide_eq_true_eq]
    norm_num
  refine ⟨hh, ?_, by decide⟩
  simp [admission]

/-- C6 (amended): an admission request whose content item is unprocessed and
    whose score is strictly below signal_threshold is rejected with
    BelowThreshold, and the rejected admission leaves the Ledger unchanged
    (no Trade record is created). -/
theorem below_threshold_reject (cfg : GateConfig) (st : RiskState)
    (req : AdmissionRequest) (led : Ledger) (sigId : Nat) (sym : String)
    (dir : Direction) (lev : ℚ) (sz : SizeResult) :
    req.processed = false → req.score < cfg.signal_threshold →
    admission cfg st req = Decision.Reject RejectReason.BelowThreshold
    ∧ admissionAndRecord cfg st req led sigId sym dir lev sz
        = (Decision.Reject RejectReason.BelowThreshold, led) := by
  intro hp hscore
  have ha : admission cfg st req = Decision.Reject RejectReason.BelowThreshold := by
    simp [admission, hp, hscore]
  exact ⟨ha, by simp [admissionAndRecord, ha]⟩

theorem below_threshold_reject_witness :
    admissionAndRecord ⟨70, 5, 5 / 100, 10000⟩ ⟨0, 0, false, false⟩ ⟨10, false, false⟩
        ⟨[]⟩ 7 "BTCUSDT" Direction.long 1 ⟨1, 1, 1⟩
      = (Decision.Reject RejectReason.BelowThreshold, ⟨[]⟩) :=
  (below_threshold_reject ⟨70, 5, 5 / 100, 10000⟩ ⟨0, 0, false, false⟩
    ⟨10, false, false⟩ ⟨[]⟩ 7 "BTCUSDT" Direction.long 1 ⟨1, 1, 1⟩ rfl (by decide)).2

/-- C6 counterexample: a signal whose score 10 is below the threshold 70 but
    whose content item is already processed is rejected with AlreadyProcessed,
    not BelowThreshold: check 1 of the admission contract fires first, so the
    claim does not hold for every signal with a below-threshold score. -/
theorem below_threshold_reject_counterexample :
    admission ⟨70, 5, 5 / 100, 10000⟩ ⟨0, 0, false, false⟩ ⟨10, true, false⟩
      = Decision.Reject RejectReason.AlreadyProcessed
    ∧ Decision.Reject RejectReason.AlreadyProcessed
        ≠ Decision.Reject RejectReason.BelowThreshold :=
  ⟨rfl, by decide⟩

lemma countFor_zero_find? (led : Ledger) (sigId : Nat) :
    countFor led sigId = 0 →
    led.trades.find? (fun t => t.signal_id == sigId) = none := by
  intro h
  rw [List.find?_eq_none]
  intro x hx
  exact List.filter_eq_nil_iff.mp (List.length_eq_zero.mp h) x hx

lemma execute_found (led : Ledger) (sigId : Nat) (sym : String) (dir : Direction)
    (lev : ℚ) (sz : SizeResult) (tr : TradeRecord) :
    led.trades.find? (fun t => t.signal_id == sigId) = some tr →
    execute led sigId sym dir lev sz = (tr, led) := by
  intro h
  simp [execute, h]

lemma execute_fresh (led : Ledger) (sigId : Nat) (sym : String) (dir : Direction)
    (lev : ℚ) (sz : SizeResult) :
    countFor led sigId = 0 →
    execute led sigId sym dir lev sz
      = (mkPending sigId sym dir lev sz, ⟨led.trades ++ [mkPending sigId sym dir lev sz]⟩) := by
  intro h
  simp [execute, countFor_zero_find? led sigId h]

lemma find?_after_insert (led : Ledger) (sigId : Nat) (sym : String)
    (dir : Direction) (lev : ℚ) (sz : SizeResult) :
    countFor led sigId = 0 →
    (led.trades ++ [mkPending sigId sym dir lev sz]).find?
        (fun t => t.signal_id == sigId) = some (mkPending sigId sym dir lev sz) := by
  intro h
  rw [List.find?_append, countFor_zero_find? led sigId h]
  have hp : (fun t : TradeRecord => t.signal_id == sigId) (mkPending sigId sym dir lev sz) = true :=
    beq_self_eq_true sigId
  simp [List.find?, hp]

/-- C2: execute is idempotent in the signal id: starting from a Ledger with no
    Trade for the signal id, a second execute call with the same id returns
    the Trade the first call created and leaves the Ledger unchanged, and
    after any further number of calls exactly one Trade record with that
    signal id exists. -/
theorem execute_idempotent (led : Ledger) (sigId : Nat) (sym : String)
    (dir : Direction) (lev : ℚ) (sz : SizeResult)
    (hfresh : countFor led sigId = 0) :
    execute (execute led sigId sym dir lev sz).2 sigId sym dir lev sz
      = ((execute led sigId sym dir lev sz).1, (execute led sigId sym dir lev sz).2)
    ∧ countFor (execute led sigId sym dir lev sz).2 sigId = 1
    ∧ ∀ n : Nat,
        countFor (executeN sigId sym dir lev sz n (execute led sigId sym dir lev sz).2) sigId = 1 := by
  have hex := execute_fresh led sigId sym dir lev sz hfresh
  have hfind1 := find?_after_insert led sigId sym dir lev sz hfresh
  have hstable : execute (execute led sigId sym dir lev sz).2 sigId sym dir lev sz
      = ((execute led sigId sym dir lev sz).1, (execute led sigId sym dir lev sz).2) := by
    rw [hex]
    exact execute_found _ sigId sym dir lev sz _ hfind1
  have hcount : countFor (execute led sigId sym dir lev sz).2 sigId = 1 := by
    rw [hex]
    have hp : (fun t : TradeRecord => t.signal_id == sigId) (mkPending sigId sym dir lev sz) = true :=
      beq_self_eq_true sigId
    simp only [countFor, List.filter_append, List.length_append]
    rw [List.length_eq_zero.mp hfresh]
    simp [List.filter, hp]
  refine ⟨hstable, hcount, ?_⟩
  intro n
  induction n with
  | zero => exact hcount
  | succ n ih =>
    have hled : (execute (execute led sigId sym dir lev sz).2 sigId sym dir lev sz).2
        = (execute led sigId sym dir lev sz).2 := by
      rw [hstable]
    simp only [executeN]
    rw [hled]
    exact ih

theorem execute_idempotent_witness :
    countFor (execute ⟨[]⟩ 7 "BTCUSDT" Direction.long 1 ⟨1, 1, 1⟩).2 7 = 1
    ∧ countFor (executeN 7 "BTCUSDT" Direction.long 1 ⟨1, 1, 1⟩ 3
        (execute ⟨[]⟩ 7 "BTCUSDT" Direction.long 1 ⟨1, 1, 1⟩).2) 7 = 1 :=
  ⟨(execute_idempotent ⟨[]⟩ 7 "BTCUSDT" Direction.long 1 ⟨1, 1, 1⟩ rfl).2.1,
   (execute_idempotent ⟨[]⟩ 7 "BTCUSDT" Direction.long 1 ⟨1, 1, 1⟩ rfl).2.2 3⟩

/-- C7: the frontend status literals OPEN, CLOSED, CANCELLED all map into the
    data model's status set Pending, Open, Closed, Cancelled, Failed; the
    Closed to Open transition is not an allowed status transition, and no
    sequence of allowed transitions leads from Closed anywhere else, so a
    Closed trade never returns to Open. -/
theorem trade_status_monotonic :
    (∀ fs : FTradeStatus, ftsToCore fs = TradeStatus.Pending
      ∨ ftsToCore fs = TradeStatus.Open ∨ ftsToCore fs = TradeStatus.Closed
      ∨ ftsToCore fs = TradeStatus.Cancelled ∨ ftsToCore fs = TradeStatus.Failed)
    ∧ allowedNext TradeStatus.Closed TradeStatus.Open = false
    ∧ (∀ s : TradeStatus, StatusReachable TradeStatus.Closed s
        → s = TradeStatus.Closed) := by
  refine ⟨?_, rfl, ?_⟩
  · intro fs
    cases fs <;> simp [ftsToCore]
  · intro s h
    have h' : Relation.ReflTransGen (fun a b => allowedNext a b = true)
        TradeStatus.Closed s := h
    rcases Relation.ReflTransGen.cases_head h' with heq | ⟨c, hc, _⟩
    · exact heq.symm
    · exfalso
      cases c <;> simp [allowedNext] at hc

theorem trade_status_monotonic_witness :
    (ftsToCore FTradeStatus.OPEN = TradeStatus.Pending
      ∨ ftsToCore FTradeStatus.OPEN = TradeStatus.Open
      ∨ ftsToCore FTradeStatus.OPEN = TradeStatus.Closed
      ∨ ftsToCore FTradeStatus.OPEN = TradeStatus.Cancelled
      ∨ ftsToCore FTradeStatus.OPEN = TradeStatus.Failed)
    ∧ TradeStatus.Closed = TradeStatus.Closed :=
  ⟨trade_status_monotonic.1 FTradeStatus.OPEN,
   trade_status_monotonic.2.2 TradeStatus.Closed Relation.ReflTransGen.refl⟩

end TradingBot
